import Mathlib

/-!
Verification development for the `run_dynamodblocal` package
(`lib/run_dynamodblocal/__init__.py`).

The Python code is embedded shallowly:

* Socket and subprocess effects are abstracted as outcome functions that are
  supplied to the embedded control flow (`probeLoop`, `acquire`,
  `scope_exit`), which reproduces the source's branching exactly.
* The DynamoDB client is modelled as an explicit state (`DB`) threaded through
  the table-provisioning functions, together with a log of the client calls
  that were issued.
* Python iterables passed for `port_range` are modelled with their element
  list and their truthiness (`PyIterable`), because line 41 of the source
  (`port_range = port_range or range(8100, 8500)`) consults truthiness.
-/

namespace RunDynamoDBLocal

/-- Outcome of `socket.create_connection(('localhost', port), 0.001)` for one
candidate port: the connection is refused (`ConnectionRefusedError`), the
connection succeeds, or some other error (such as `socket.timeout`) is
raised.  Only `ConnectionRefusedError` is caught by the `except` clause in
`in_subprocess`. -/
inductive ProbeResult where
  | refused
  | connected
  | otherError
  deriving DecidableEq

/-- Errors raised while entering the `in_subprocess` scope:
`unboundLocal` is the `UnboundLocalError` raised by `if port is None:` when the
loop body never ran; `connectError` is a non-refusal socket error propagating
out of the probe loop; `noPortAvailable` is
`Exception(f"No sockets available in ...")` carrying the (normalized) port
range; `serviceStartupFailed` is
`Exception(f"DynamoDBLocal returned code ...")`. -/
inductive SupError where
  | unboundLocal
  | connectError (port : Nat)
  | noPortAvailable (range : List Nat)
  | serviceStartupFailed (code : Int)
  deriving DecidableEq

/-- A Python iterable of ports, as passed for `port_range`: its elements
in iteration order, plus its truthiness (`bool(it)`), which Python's `or`
consults.  Lists, tuples and `range` objects are falsy exactly when empty,
while generators and other iterators are always truthy. -/
structure PyIterable where
  ports : List Nat
  truthy : Bool
  deriving DecidableEq

/-- The default `range(8100, 8500)`. -/
def defaultRange : List Nat := List.range' 8100 400

/-- Line 41: `port_range = port_range or range(8100, 8500)`.  `None` (absent)
and any falsy iterable are replaced by the default range. -/
def normalizeRange : Option PyIterable → List Nat
  | none => defaultRange
  | some it => if it.truthy then it.ports else defaultRange

/-- How the probe loop `for port in port_range:` can end: `unbound` when the
body never ran (so the local `port` was never assigned), `exhausted` when the
final iteration set `port = None`, `selected p` on `break` after a refused
connection. -/
inductive LoopExit where
  | unbound
  | exhausted
  | selected (port : Nat)
  deriving DecidableEq

/-- Lines 42-47 of the source: iterate the candidate ports; a refused
connection breaks out of the loop keeping that port; a successful connection
sets `port = None` and continues; any other socket error propagates. -/
def probeLoop (outcome : Nat → ProbeResult) : List Nat → Except SupError LoopExit
  | [] => .ok .unbound
  | p :: rest =>
    match outcome p with
    | .refused => .ok (.selected p)
    | .otherError => .error (.connectError p)
    | .connected =>
      match probeLoop outcome rest with
      | .ok .unbound => .ok .exhausted
      | r => r

/-- Lines 42-50 of the source: run the probe loop, then
`if port is None: raise Exception(f"No sockets available in ...")`.
When the loop body never ran, the `port is None` test itself raises
`UnboundLocalError`. -/
def selectPort (outcome : Nat → ProbeResult) (rng : List Nat) :
    Except SupError Nat :=
  match probeLoop outcome rng with
  | .ok (.selected p) => .ok p
  | .ok .exhausted => .error (.noPortAvailable rng)
  | .ok .unbound => .error .unboundLocal
  | .error e => .error e

/-- What `db_server.wait(timeout=0.1)` observes right after the spawn: the
process exited with a code within the 100ms window, or the wait timed out
(`subprocess.TimeoutExpired`) with the process still running. -/
inductive StartupWait where
  | exited (code : Int)
  | timedOut
  deriving DecidableEq

/-- Observable side effects of entering the `in_subprocess` scope. -/
inductive SupEvent where
  | spawned (port : Nat)
  deriving DecidableEq

/-- Scope entry of `in_subprocess` (lines 41-73): select a port, spawn the
server process on it, then verify startup with a 100ms wait; yields the port
on success.  The returned list records whether a process was spawned. -/
def acquire (outcome : Nat → ProbeResult) (rng : Option PyIterable)
    (wait : Nat → StartupWait) : Except SupError Nat × List SupEvent :=
  match selectPort outcome (normalizeRange rng) with
  | .error e => (.error e, [])
  | .ok port =>
    match wait port with
    | .exited code => (.error (.serviceStartupFailed code), [.spawned port])
    | .timedOut => (.ok port, [.spawned port])

def exceptToSum {ε α : Type} : Except ε α → ε ⊕ α
  | .error e => .inl e
  | .ok a => .inr a

instance {ε α : Type} [DecidableEq ε] [DecidableEq α] :
    DecidableEq (Except ε α) := fun x y =>
  decidable_of_iff (exceptToSum x = exceptToSum y)
    (by cases x <;> cases y <;> simp [exceptToSum])

theorem probeLoop_spec (outcome : Nat → ProbeResult) (rng : List Nat) :
    probeLoop outcome rng =
      match rng.find? (fun q => !(outcome q == .connected)) with
      | some p =>
        match outcome p with
        | .refused => .ok (.selected p)
        | _ => .error (.connectError p)
      | none => if rng.isEmpty then .ok .unbound else .ok .exhausted := by
  induction rng with
  | nil => rfl
  | cons q rest ih =>
    cases hq : outcome q with
    | refused =>
      simp only [probeLoop, hq, List.find?]
      simp only [show (!(ProbeResult.refused == ProbeResult.connected)) = true
        from rfl]
      simp [hq]
    | otherError =>
      simp only [probeLoop, hq, List.find?]
      simp only [show (!(ProbeResult.otherError == ProbeResult.connected)) = true
        from rfl]
      simp [hq]
    | connected =>
      simp only [probeLoop, hq, List.find?]
      simp only [show (!(ProbeResult.connected == ProbeResult.connected)) = false
        from rfl]
      rw [ih]
      cases hf : List.find? (fun q => !(outcome q == .connected)) rest with
      | some p =>
        have hp := List.find?_some hf
        cases hop : outcome p with
        | refused => simp [hop]
        | otherError => simp [hop]
        | connected => rw [hop] at hp; simp at hp
      | none =>
        cases rest with
        | nil => simp
        | cons r rest' => simp

theorem probeLoop_selected_iff (outcome : Nat → ProbeResult) (rng : List Nat)
    (p : Nat) :
    probeLoop outcome rng = .ok (.selected p) ↔
      rng.find? (fun q => !(outcome q == .connected)) = some p ∧
        outcome p = .refused := by
  rw [probeLoop_spec]
  cases hf : rng.find? (fun q => !(outcome q == .connected)) with
  | some q =>
    cases hoq : outcome q with
    | refused =>
      simp only [hoq]
      constructor
      · intro h
        simp only [Except.ok.injEq, LoopExit.selected.injEq] at h
        subst h
        exact ⟨rfl, hoq⟩
      · rintro ⟨h1, _⟩
        simp only [Option.some.injEq] at h1
        subst h1
        rfl
    | connected =>
      have := List.find?_some hf
      rw [hoq] at this
      simp at this
    | otherError =>
      simp only [hoq]
      constructor
      · intro h; simp at h
      · rintro ⟨h1, h2⟩
        simp only [Option.some.injEq] at h1
        subst h1
        rw [hoq] at h2
        simp at h2
  | none =>
    constructor
    · intro h
      cases rng with
      | nil => simp at h
      | cons a l => simp at h
    · rintro ⟨h1, _⟩
      simp at h1

theorem probeLoop_connectError (outcome : Nat → ProbeResult) (rng : List Nat)
    (p : Nat)
    (h1 : rng.find? (fun q => !(outcome q == .connected)) = some p)
    (h2 : outcome p = .otherError) :
    probeLoop outcome rng = .error (.connectError p) := by
  rw [probeLoop_spec, h1]
  simp [h2]

theorem selectPort_ok_iff (outcome : Nat → ProbeResult) (rng : List Nat)
    (p : Nat) :
    selectPort outcome rng = .ok p ↔
      probeLoop outcome rng = .ok (.selected p) := by
  constructor
  · intro h
    unfold selectPort at h
    cases hpl : probeLoop outcome rng with
    | ok ex =>
      cases ex with
      | unbound => rw [hpl] at h; simp at h
      | exhausted => rw [hpl] at h; simp at h
      | selected q =>
        rw [hpl] at h
        simp only [Except.ok.injEq] at h
        rw [h]
    | error e => rw [hpl] at h; simp at h
  · intro h; unfold selectPort; rw [h]

/-- Claim C1 (amended): `in_subprocess` probes candidate ports in range order;
the first port whose connection attempt does not succeed decides the outcome:
if that attempt was refused, the port is selected; a successful connection
causes the port to be skipped and probing to continue; but a non-refusal
error (such as a timeout) is not caught and propagates, aborting the probe
loop and scope entry rather than skipping the candidate. -/
theorem C1_thm (outcome : Nat → ProbeResult) (rng : List Nat) (p : Nat) :
    (selectPort outcome rng = .ok p ↔
      rng.find? (fun q => !(outcome q == .connected)) = some p ∧
        outcome p = .refused) ∧
    (rng.find? (fun q => !(outcome q == .connected)) = some p →
      outcome p = .otherError →
        selectPort outcome rng = .error (.connectError p)) := by
  constructor
  · exact (selectPort_ok_iff outcome rng p).trans
      (probeLoop_selected_iff outcome rng p)
  · intro h1 h2
    unfold selectPort
    rw [probeLoop_connectError outcome rng p h1 h2]

/-- Witness for C1: with ports `[1, 2]` where 1 connects and 2 refuses, port 2
(the first refused one) is selected; with 1 raising a non-refusal error
instead, the error for port 1 propagates. -/
def c1SkipOutcome : Nat → ProbeResult :=
  fun p => if p = 1 then .connected else .refused

def c1AbortOutcome : Nat → ProbeResult :=
  fun p => if p = 1 then .otherError else .refused

theorem C1_wit :
    selectPort c1SkipOutcome [1, 2] = .ok 2 ∧
    selectPort c1AbortOutcome [1, 2] = .error (.connectError 1) := by
  constructor
  · exact (C1_thm c1SkipOutcome [1, 2] 2).1.mpr ⟨by decide, by decide⟩
  · exact (C1_thm c1AbortOutcome [1, 2] 1).2 (by decide) (by decide)

/-- Counterexample to claim C1 as stated: with ports `[1, 2]` where the
connection attempt to port 1 fails with a non-refusal error (e.g. a timeout)
and port 2 would be refused, the claim says port 1 is skipped and port 2 is
selected; the code instead propagates the socket error for port 1. -/
theorem C1_cex :
    selectPort c1AbortOutcome [1, 2] = .error (.connectError 1) ∧
    selectPort c1AbortOutcome [1, 2] ≠ .ok 2 := by decide

theorem probeLoop_exhausted (outcome : Nat → ProbeResult) (l : List Nat)
    (hne : l ≠ []) (hocc : ∀ p ∈ l, outcome p = .connected) :
    probeLoop outcome l = .ok .exhausted := by
  rw [probeLoop_spec]
  have hf : l.find? (fun q => !(outcome q == .connected)) = none := by
    rw [List.find?_eq_none]
    intro x hx
    simp [hocc x hx]
  rw [hf]
  simp [hne, List.isEmpty_iff]

/-- Claim C6 (amended): for every port range whose normalized candidate list
is non-empty and on which every connection attempt succeeds (every candidate
port is genuinely occupied by a listener), `in_subprocess` raises the
no-ports-available exception, whose payload is the attempted (normalized)
range, and spawns no process.  The counterexample shows why the claim as
frozen had to be narrowed: an empty candidate list reaches the
`UnboundLocalError`, and a candidate whose probe fails with a non-refusal
error propagates that error — in neither case is the no-ports-available
exception raised, although no connection attempt was refused. -/
theorem C6_thm (outcome : Nat → ProbeResult) (rng : Option PyIterable)
    (wait : Nat → StartupWait)
    (hne : normalizeRange rng ≠ [])
    (hocc : ∀ p ∈ normalizeRange rng, outcome p = .connected) :
    acquire outcome rng wait =
      (.error (.noPortAvailable (normalizeRange rng)), []) := by
  have hpl := probeLoop_exhausted outcome (normalizeRange rng) hne hocc
  unfold acquire selectPort
  rw [hpl]

def w6Outcome : Nat → ProbeResult := fun _ => .connected

def w6Wait : Nat → StartupWait := fun _ => .timedOut

theorem C6_wit :
    acquire w6Outcome (some ⟨[9100, 9101], true⟩) w6Wait =
      (.error (.noPortAvailable [9100, 9101]), []) :=
  C6_thm w6Outcome (some ⟨[9100, 9101], true⟩) w6Wait (by decide) (by decide)

def c6ErrOutcome : Nat → ProbeResult := fun _ => .otherError

/-- Counterexample to claim C6 as stated: two concrete port ranges on which no
connection attempt is refused, yet the failure is not the no-ports-available
exception: a single candidate whose probe raises a non-refusal error makes
that error propagate, and an empty (truthy) iterable reaches the
`UnboundLocalError`. -/
theorem C6_cex :
    ((normalizeRange (some ⟨[1], true⟩)).all
      (fun p => !(c6ErrOutcome p == .refused))) = true ∧
    acquire c6ErrOutcome (some ⟨[1], true⟩) w6Wait =
      (.error (.connectError 1), []) ∧
    (acquire c6ErrOutcome (some ⟨[1], true⟩) w6Wait).1 ≠
      .error (.noPortAvailable [1]) ∧
    ((normalizeRange (some ⟨[], true⟩)).all
      (fun p => !(w6Outcome p == .refused))) = true ∧
    acquire w6Outcome (some ⟨[], true⟩) w6Wait =
      (.error .unboundLocal, []) ∧
    (acquire w6Outcome (some ⟨[], true⟩) w6Wait).1 ≠
      .error (.noPortAvailable []) := by decide

/-- Claim C3: when a port has been selected, the startup-verification wait
decides scope entry: if the spawned process exits with code `N` within the
100ms window, `in_subprocess` raises the startup-failure exception carrying
`N` and never yields a port to the caller; if the wait times out with the
process still running, scope entry succeeds and yields the port. -/
theorem C3_thm (outcome : Nat → ProbeResult) (rng : Option PyIterable)
    (wait : Nat → StartupWait) (p : Nat) (code : Int)
    (hsel : selectPort outcome (normalizeRange rng) = .ok p) :
    (wait p = .exited code →
      acquire outcome rng wait =
        (.error (.serviceStartupFailed code), [.spawned p])) ∧
    (wait p = .timedOut → acquire outcome rng wait = (.ok p, [.spawned p])) := by
  unfold acquire
  rw [hsel]
  constructor <;> intro h <;> simp [h]

def w3Outcome : Nat → ProbeResult := fun _ => .refused

def w3WaitExit : Nat → StartupWait := fun _ => .exited 7

theorem C3_wit :
    acquire w3Outcome (some ⟨[9100], true⟩) w3WaitExit =
      (.error (.serviceStartupFailed 7), [.spawned 9100]) ∧
    acquire w3Outcome (some ⟨[9100], true⟩) w6Wait = (.ok 9100, [.spawned 9100]) :=
  ⟨(C3_thm w3Outcome (some ⟨[9100], true⟩) w3WaitExit 9100 7 (by decide)).1 rfl,
   (C3_thm w3Outcome (some ⟨[9100], true⟩) w6Wait 9100 7 (by decide)).2 rfl⟩

/-- Claim C10 (amended): only a *truthy* empty port range (such as an
exhausted generator) survives the `port_range or range(8100, 8500)`
normalization as empty; for it the probe loop never binds `port`, and scope
entry fails with the `UnboundLocalError` — not the no-ports-available
exception — and spawns no process.  A *falsy* empty port range (an empty
list, tuple or `range`) is replaced by the default `range(8100, 8500)`, so
for it probing proceeds on the default range and the no-ports-available path
stays reachable. -/
theorem C10_thm :
    (∀ (outcome : Nat → ProbeResult) (wait : Nat → StartupWait),
      acquire outcome (some ⟨[], true⟩) wait = (.error .unboundLocal, [])) ∧
    normalizeRange (some ⟨[], false⟩) = defaultRange ∧
    normalizeRange none = defaultRange ∧
    (∀ (outcome : Nat → ProbeResult) (wait : Nat → StartupWait)
        (r : List Nat),
      (acquire outcome (some ⟨[], true⟩) wait).1 ≠
        .error (.noPortAvailable r)) := by
  refine ⟨fun o w => rfl, rfl, rfl, fun o w r h => ?_⟩
  simp [acquire, selectPort, probeLoop] at h

def c10Outcome : Nat → ProbeResult := fun _ => .refused

/-- Counterexample to claim C10 as stated: an empty *list* supplied as the
port range is falsy, so line 41 replaces it with the default range; probing
then binds `port` (here every probe is refused, so 8100 is selected and the
process is spawned) instead of failing with the `UnboundLocalError`. -/
theorem C10_cex :
    acquire c10Outcome (some ⟨[], false⟩) w6Wait = (.ok 8100, [.spawned 8100]) ∧
    (acquire c10Outcome (some ⟨[], false⟩) w6Wait).1 ≠
      .error .unboundLocal := by
  constructor
  · rfl
  · intro h
    rw [show (acquire c10Outcome (some ⟨[], false⟩) w6Wait).1 = .ok 8100
      from rfl] at h
    exact Except.noConfusion h

/-! ### Teardown of `in_subprocess` (lines 72-83) -/

/-- Client-visible process-control calls issued during teardown:
`db_server.terminate()`, `db_server.wait()` (no timeout), `db_server.kill()`. -/
inductive TdAction where
  | terminate
  | waitNoTimeout
  | kill
  deriving DecidableEq

/-- What the indefinite `db_server.wait()` in the `finally:` block does:
either the process exits with a code, or the blocking wait is interrupted by
`KeyboardInterrupt`. -/
inductive TdWait where
  | exited (code : Int)
  | interrupted
  deriving DecidableEq

/-- How the body of the `with` scope (the code around `yield port`) ended:
normally, or by raising an exception. -/
inductive BodyResult where
  | normal
  | raised (msg : String)
  deriving DecidableEq

/-- Net result of leaving the `in_subprocess` scope. -/
inductive ScopeOutcome where
  | ok
  | bodyError (msg : String)
  | cancelled
  deriving DecidableEq

/-- The `finally:` block of `in_subprocess` (lines 74-83): terminate, then
wait with no timeout; if the wait raises `KeyboardInterrupt`, kill the
process and re-raise (the Bool records whether `KeyboardInterrupt` is
re-raised). -/
def teardown : TdWait → List TdAction × Bool
  | .exited _ => ([.terminate, .waitNoTimeout], false)
  | .interrupted => ([.terminate, .waitNoTimeout, .kill], true)

/-- Leaving the `in_subprocess` scope: the `finally:` teardown runs for every
body result; a `KeyboardInterrupt` re-raised from the teardown supersedes the
body's own outcome, otherwise the body's outcome stands. -/
def scope_exit (body : BodyResult) (w : TdWait) : List TdAction × ScopeOutcome :=
  match teardown w with
  | (acts, true) => (acts, .cancelled)
  | (acts, false) =>
    (acts, match body with
           | .normal => .ok
           | .raised m => .bodyError m)

/-- Claim C4: on every exit of the `in_subprocess` scope — normal or via an
exception from the body — the teardown first requests graceful termination
and then waits with no timeout; and whenever that wait is interrupted by a
cancellation signal, the process is killed and the cancellation is re-raised
(superseding any body outcome) rather than swallowed. -/
theorem C4_thm (body : BodyResult) (w : TdWait) :
    (scope_exit body w).1.take 2 = [.terminate, .waitNoTimeout] ∧
    (∀ body' : BodyResult,
      scope_exit body' .interrupted =
        ([.terminate, .waitNoTimeout, .kill], .cancelled)) ∧
    (∀ (body' : BodyResult) (c : Int),
      (scope_exit body' (.exited c)).2 =
        match body' with
        | .normal => .ok
        | .raised m => .bodyError m) := by
  refine ⟨?_, fun body' => rfl, fun body' c => rfl⟩
  cases w <;> cases body <;> rfl

/-! ### Client interception layer (`patched_into_boto3`, lines 85-156) -/

/-- A Python value passed as a keyword argument to `boto3` client or resource
construction. -/
inductive PyVal where
  | str (s : String)
  | bool (b : Bool)
  | int (n : Int)
  deriving DecidableEq

/-- A Python keyword-argument dict, as a key-value list in insertion order
(dict keys are unique in Python; operations below preserve that). -/
abbrev Kwargs : Type := List (String × PyVal)

/-- Setting one key of a Python dict: an existing key keeps its position with
its value replaced; a new key is appended at the end. -/
def pyDictInsert (d : Kwargs) (k : String) (v : PyVal) : Kwargs :=
  if d.any (fun kv => kv.1 == k) then
    d.map (fun kv => cond (kv.1 == k) (k, v) kv)
  else d ++ [(k, v)]

/-- Python `dict(a, **b)`: start from `a` and set every key of `b` in order. -/
def pyDictMerge (a b : Kwargs) : Kwargs :=
  b.foldl (fun d kv => pyDictInsert d kv.1 kv.2) a

/-- The `endpoint_kwargs` dict built at lines 120-123 from the supervised
instance's port. -/
def endpoint_kwargs (port : Nat) : Kwargs :=
  [("endpoint_url", .str ("http://localhost:" ++ toString port)),
   ("use_ssl", .bool false)]

/-- A call to `boto3_mocking.clients.real` / `boto3_mocking.resources.real`:
the service name and the keyword arguments it receives. -/
structure RealCall where
  service : String
  kwargs : Kwargs
  deriving DecidableEq

/-- The `mock_client` factory registered by `patched_into_boto3`
(lines 125-129): it forwards the caller's kwargs updated with
`endpoint_kwargs`, so the local endpoint configuration wins. -/
def mock_client (port : Nat) (kwargs : Kwargs) : RealCall :=
  ⟨"dynamodb", pyDictMerge kwargs (endpoint_kwargs port)⟩

/-- The `mock_resource` factory registered by `patched_into_boto3`
(lines 131-135). -/
def mock_resource (port : Nat) (kwargs : Kwargs) : RealCall :=
  ⟨"dynamodb", pyDictMerge kwargs (endpoint_kwargs port)⟩

theorem lookup_map_upd_self (d : Kwargs) (k : String) (v : PyVal)
    (hany : d.any (fun kv => kv.1 == k) = true) :
    (d.map (fun kv => cond (kv.1 == k) (k, v) kv)).lookup k
      = some v := by
  induction d with
  | nil => simp at hany
  | cons kv rest ih =>
    obtain ⟨k1, v1⟩ := kv
    cases h1 : (k1 == k) with
    | true =>
      simp only [List.map_cons, h1, cond_true, List.lookup, beq_self_eq_true]
    | false =>
      have hrest : rest.any (fun kv => kv.1 == k) = true := by
        simp only [List.any_cons, h1, Bool.false_or] at hany
        exact hany
      have hne : (k == k1) = false := by
        cases hc : (k == k1) with
        | true =>
          have hkk1 : k = k1 := by simpa using hc
          rw [hkk1, beq_self_eq_true] at h1
          exact absurd h1 (by simp)
        | false => rfl
      simp only [List.map_cons, h1, cond_false, List.lookup, hne]
      exact ih hrest

theorem lookup_append_one_self (d : Kwargs) (k : String) (v : PyVal)
    (hany : d.any (fun kv => kv.1 == k) = false) :
    (d ++ [(k, v)]).lookup k = some v := by
  induction d with
  | nil => simp only [List.nil_append, List.lookup, beq_self_eq_true]
  | cons kv rest ih =>
    obtain ⟨k1, v1⟩ := kv
    simp only [List.any_cons, Bool.or_eq_false_iff] at hany
    have hne : (k == k1) = false := by
      cases hc : (k == k1) with
      | true =>
        have hkk1 : k = k1 := by simpa using hc
        rw [hkk1, beq_self_eq_true] at hany
        exact absurd hany.1 (by simp)
      | false => rfl
    simp only [List.cons_append, List.lookup, hne]
    exact ih hany.2

theorem lookup_map_upd_ne (d : Kwargs) (q k : String) (v : PyVal)
    (h : k ≠ q) :
    (d.map (fun kv => cond (kv.1 == q) (q, v) kv)).lookup k
      = d.lookup k := by
  induction d with
  | nil => rfl
  | cons kv rest ih =>
    obtain ⟨k1, v1⟩ := kv
    cases h1 : (k1 == q) with
    | true =>
      have hk1 : k1 = q := by simpa using h1
      have hne1 : (k == q) = false := beq_false_of_ne h
      have hne2 : (k == k1) = false := beq_false_of_ne (by rw [hk1]; exact h)
      simp only [List.map_cons, h1, cond_true, List.lookup, hne1, hne2]
      exact ih
    | false =>
      simp only [List.map_cons, h1, cond_false, List.lookup]
      cases hc : (k == k1) with
      | true => rfl
      | false => exact ih

theorem lookup_append_one_ne (d : Kwargs) (q k : String) (v : PyVal)
    (h : k ≠ q) :
    (d ++ [(q, v)]).lookup k = d.lookup k := by
  induction d with
  | nil =>
    simp only [List.nil_append, List.lookup, beq_false_of_ne h]
  | cons kv rest ih =>
    obtain ⟨k1, v1⟩ := kv
    simp only [List.cons_append, List.lookup]
    cases hc : (k == k1) with
    | true => rfl
    | false => exact ih

theorem lookup_pyDictInsert (d : Kwargs) (q k : String) (v : PyVal) :
    (pyDictInsert d q v).lookup k = if k = q then some v else d.lookup k := by
  unfold pyDictInsert
  by_cases hk : k = q
  · subst hk
    rw [if_pos rfl]
    by_cases hany : d.any (fun kv => kv.1 == k) = true
    · rw [if_pos hany]
      exact lookup_map_upd_self d k v hany
    · rw [if_neg hany]
      exact lookup_append_one_self d k v (by
        cases hc : d.any (fun kv => kv.1 == k) with
        | true => exact absurd hc hany
        | false => rfl)
  · rw [if_neg hk]
    by_cases hany : d.any (fun kv => kv.1 == q) = true
    · rw [if_pos hany]
      exact lookup_map_upd_ne d q k v hk
    · rw [if_neg hany]
      exact lookup_append_one_ne d q k v hk

/-- Claim C9: while Case A interception is active, the registered factories
construct real handles for service `'dynamodb'` whose keyword arguments are
the caller's kwargs updated with the local instance's endpoint configuration:
whatever `endpoint_url` or `use_ssl` the caller supplied, the constructed
handle targets `http://localhost:<port>` with TLS disabled, and client and
resource factories behave identically. -/
theorem C9_thm (port : Nat) (kwargs : Kwargs) :
    (mock_client port kwargs).service = "dynamodb" ∧
    (mock_client port kwargs).kwargs.lookup "endpoint_url" =
      some (.str ("http://localhost:" ++ toString port)) ∧
    (mock_client port kwargs).kwargs.lookup "use_ssl" = some (.bool false) ∧
    mock_resource port kwargs = mock_client port kwargs := by
  have hmerge : pyDictMerge kwargs (endpoint_kwargs port) =
      pyDictInsert
        (pyDictInsert kwargs "endpoint_url"
          (.str ("http://localhost:" ++ toString port)))
        "use_ssl" (.bool false) := rfl
  refine ⟨rfl, ?_, ?_, rfl⟩
  · show (pyDictMerge kwargs (endpoint_kwargs port)).lookup "endpoint_url" = _
    rw [hmerge, lookup_pyDictInsert, if_neg (by decide), lookup_pyDictInsert,
      if_pos rfl]
  · show (pyDictMerge kwargs (endpoint_kwargs port)).lookup "use_ssl" = _
    rw [hmerge, lookup_pyDictInsert, if_pos rfl]

/-- Errors raised when entering the `patched_into_boto3` scope. -/
inductive PatchErr where
  | patchingNotEngaged
  | noServiceConfigured
  | supervisor (e : SupError)
  deriving DecidableEq

/-- Observable side effects of entering the `patched_into_boto3` scope:
entering the `in_subprocess` supervisor scope, and registering the
client/resource factories with `boto3_mocking.enter_handlers`. -/
inductive PEvent where
  | startSupervisor
  | registerHandlers
  deriving DecidableEq

/-- Scope entry of `patched_into_boto3` (lines 110-156): check the global
patching flag, check that a server path or a missing-handler exists, then in
Case A enter the supervisor scope and register the factories; in Case B
register the missing-handler factories only.  Returns the supervised port (if
any) and the list of effects in order. -/
def patched_enter (engaged : Bool) (path : Option String)
    (hasOnMissing : Bool) (outcome : Nat → ProbeResult)
    (rng : Option PyIterable) (wait : Nat → StartupWait) :
    Except PatchErr (Option Nat) × List PEvent :=
  if engaged = false then (.error .patchingNotEngaged, [])
  else if path.isNone && !hasOnMissing then (.error .noServiceConfigured, [])
  else
    match path with
    | some _ =>
      match acquire outcome rng wait with
      | (.error e, _) => (.error (.supervisor e), [.startSupervisor])
      | (.ok port, _) =>
        (.ok (some port), [.startSupervisor, .registerHandlers])
    | none => (.ok none, [.registerHandlers])

/-- Claim C7: whenever the `patched_into_boto3` scope is entered while the
global patching-engaged flag is off, it fails with the patching-not-engaged
exception before any factory registration and before any supervisor scope is
entered, so the interception registry is left unmodified (the effect list is
empty). -/
theorem C7_thm (path : Option String) (hasOnMissing : Bool)
    (outcome : Nat → ProbeResult) (rng : Option PyIterable)
    (wait : Nat → StartupWait) :
    patched_enter false path hasOnMissing outcome rng wait =
      (.error .patchingNotEngaged, []) := rfl


/-! ### Table provisioning (`LocalTableBuilder` / `LocalDbOps`, lines 158-245) -/

/-- An item written to a table, as a record of attribute names and values
(attribute typing is inferred by the external client layer and is opaque
here). -/
abbrev Item : Type := List (String × String)

/-- One `AWS::DynamoDB::Table` resource definition from the Serverless
config: its `Properties` mapping (passed verbatim to `create_table`), with
its `TableName` entry extracted as `name` and the attribute names of its
`KeySchema` extracted as `keys` (the table's primary key). -/
structure TableDef where
  name : String
  keys : List String
  props : List (String × String)
  deriving DecidableEq

/-- One live table held by the local DynamoDB service, with its primary-key
attribute names. -/
structure TableEntry where
  name : String
  keys : List String
  props : List (String × String)
  rows : List Item
  deriving DecidableEq

/-- Whether two items carry the same primary key: they agree on every key
attribute of the table. -/
def sameKey (keys : List String) (a b : Item) : Bool :=
  keys.all (fun k => a.lookup k == b.lookup k)

/-- DynamoDB `PutItem` semantics on a table's rows: an item *replaces* the
existing item with the same primary key (in place), and is appended
otherwise — two items with one primary key never coexist. -/
def upsert (keys : List String) (it : Item) : List Item → List Item
  | [] => [it]
  | r :: rs => cond (sameKey keys r it) (it :: rs) (r :: upsert keys it rs)

/-- Putting a list of items in order. -/
def upsertList (keys : List String) (items : List Item) (rs : List Item) :
    List Item :=
  items.foldl (fun rs it => upsert keys it rs) rs

/-- Whether the items of a list have pairwise-distinct primary keys. -/
def distinctKeys (keys : List String) : List Item → Bool
  | [] => true
  | it :: its =>
    its.all (fun b => !(sameKey keys it b)) && distinctKeys keys its

/-- Calls that the provisioning code issues against the DynamoDB client. -/
inductive DbOp where
  | listT
  | deleteT (n : String)
  | createT (t : TableDef)
  | putT (n : String) (it : Item)
  deriving DecidableEq

/-- Errors surfaced by the provisioning code: the `NotLocalEndpoint`
assertion in `recreate_through`, and the client's own errors for creating an
existing table or deleting/writing a missing one. -/
inductive TErr where
  | notLocalEndpoint
  | resourceInUse (n : String)
  | resourceNotFound (n : String)
  deriving DecidableEq

/-- State of the local DynamoDB service together with the log of client
calls issued so far. -/
structure DB where
  tables : List TableEntry
  log : List DbOp
  deriving DecidableEq

def DB.tableNames (db : DB) : List String := db.tables.map (fun e => e.name)

/-- The call `ddb.list_tables()['TableNames']`. -/
def DB.list_tables (db : DB) : List String × DB :=
  (db.tableNames, ⟨db.tables, db.log ++ [.listT]⟩)

/-- The call `ddb.delete_table(TableName=n)`: fails with the client's not-found error
when no table named `n` exists. -/
def DB.delete_table (db : DB) (n : String) : Except TErr Unit × DB :=
  cond (db.tables.any (fun e => e.name == n))
    (.ok (), ⟨db.tables.filter (fun e => !(e.name == n)),
      db.log ++ [.deleteT n]⟩)
    (.error (.resourceNotFound n), ⟨db.tables, db.log ++ [.deleteT n]⟩)

/-- The call `ddb.create_table(**t['Properties'])`: fails with the client's
resource-in-use error when a table of that name already exists; otherwise
the new table starts empty. -/
def DB.create_table (db : DB) (t : TableDef) : Except TErr Unit × DB :=
  cond (db.tables.any (fun e => e.name == t.name))
    (.error (.resourceInUse t.name), ⟨db.tables, db.log ++ [.createT t]⟩)
    (.ok (), ⟨db.tables ++ [⟨t.name, t.keys, t.props, []⟩],
      db.log ++ [.createT t]⟩)

/-- One `batch.put_item(Item=item)` against table `n`: DynamoDB `PutItem`
replaces the existing item with the same primary key or adds the item, and
fails with the client's not-found error when the table does not exist. -/
def DB.put_item (db : DB) (n : String) (it : Item) : Except TErr Unit × DB :=
  cond (db.tables.any (fun e => e.name == n))
    (.ok (), ⟨db.tables.map
      (fun e => cond (e.name == n)
        (TableEntry.mk e.name e.keys e.props (upsert e.keys it e.rows)) e),
      db.log ++ [.putT n it]⟩)
    (.error (.resourceNotFound n), ⟨db.tables, db.log ++ [.putT n it]⟩)

/-- The first table named `n`, if any, giving its rows. -/
def DB.tableRows (db : DB) (n : String) : Option (List Item) :=
  (db.tables.find? (fun e => e.name == n)).map (fun e => e.rows)

/-- The first table named `n`, if any, giving its key attributes and rows. -/
def DB.tableState (db : DB) (n : String) :
    Option (List String × List Item) :=
  (db.tables.find? (fun e => e.name == n)).map (fun e => (e.keys, e.rows))

/-- The characters of `'http://localhost:'`. -/
def localChars : List Char := "http://localhost:".data

/-- The check `endpoint.startswith('http://localhost:')` (line 203), expressed over
the endpoint's characters. -/
def localEndpointCheck (endpoint : String) : Bool :=
  endpoint.data.take localChars.length == localChars

/-- One iteration of the `for t in self.tables:` loop of `recreate_through`
(lines 206-209): delete the table first when its name is in the fetched
`existing` list, then create it from its declared properties. -/
def recreateStep (existing : List String) (t : TableDef) (db : DB) :
    Except TErr Unit × DB :=
  let d := cond (existing.any (fun m => m == t.name))
    (db.delete_table t.name) (.ok (), db)
  match d.1 with
  | .error e => (.error e, d.2)
  | .ok _ => d.2.create_table t

/-- The `for t in self.tables:` loop of `recreate_through`: a client error
aborts the remaining iterations. -/
def recreateLoop (existing : List String) :
    List TableDef → DB → Except TErr Unit × DB
  | [], db => (.ok (), db)
  | t :: ts, db =>
    let s := recreateStep existing t db
    match s.1 with
    | .error e => (.error e, s.2)
    | .ok _ => recreateLoop existing ts s.2

/-- Method `LocalTableBuilder.recreate_through` (lines 192-209): assert that the
client's endpoint targets localhost, fetch the existing table names once,
then run the per-table delete/create loop. -/
def recreate_through (endpoint : String) (ts : List TableDef) (db : DB) :
    Except TErr Unit × DB :=
  cond (localEndpointCheck endpoint)
    (let fetched := db.list_tables
     recreateLoop fetched.1 ts fetched.2)
    (.error .notLocalEndpoint, db)

/-- The inner `for item in fixture_data[table_name]:` loop inside one
`batch_writer` scope (lines 242-245). -/
def putItemsLoop (n : String) : List Item → DB → Except TErr Unit × DB
  | [], db => (.ok (), db)
  | it :: its, db =>
    let s := db.put_item n it
    match s.1 with
    | .error e => (.error e, s.2)
    | .ok _ => putItemsLoop n its s.2

/-- The outer `for table_name in (fixture_data or ()):` loop of
`fresh_test_tables` (lines 240-245). -/
def putFixture : List (String × List Item) → DB → Except TErr Unit × DB
  | [], db => (.ok (), db)
  | (n, items) :: rest, db =>
    let s := putItemsLoop n items db
    match s.1 with
    | .error e => (.error e, s.2)
    | .ok _ => putFixture rest s.2

/-- Method `LocalDbOps.fresh_test_tables` (lines 227-245): recreate the schema's
tables through the resource's client, then insert the fixture rows table by
table.  `fixture` is the Python dict as a key-value list in insertion order
(its keys are unique); `none` models `fixture_data=None`, which like an
empty dict populates nothing. -/
def fresh_test_tables (ts : List TableDef) (endpoint : String)
    (fixture : Option (List (String × List Item))) (db : DB) :
    Except TErr Unit × DB :=
  let s := recreate_through endpoint ts db
  match s.1 with
  | .error e => (.error e, s.2)
  | .ok _ => putFixture (fixture.getD []) s.2

/-- Claim C5: for every client whose configured endpoint does not begin with
`http://localhost:` (in particular any endpoint not targeting localhost),
`recreate_through` fails its safety assertion before issuing any client
call, leaving the database — all tables and the call log — untouched. -/
theorem C5_thm (endpoint : String) (ts : List TableDef) (db : DB)
    (h : localEndpointCheck endpoint = false) :
    recreate_through endpoint ts db = (.error .notLocalEndpoint, db) := by
  unfold recreate_through
  rw [h]
  rfl

theorem C5_wit :
    recreate_through "https://dynamodb.us-east-1.amazonaws.com"
      [⟨"Users", ["id"], [("TableName", "Users")]⟩] ⟨[], []⟩ =
      (.error .notLocalEndpoint, ⟨[], []⟩) :=
  C5_thm "https://dynamodb.us-east-1.amazonaws.com"
    [⟨"Users", ["id"], [("TableName", "Users")]⟩] ⟨[], []⟩ (by decide)


theorem any_filter_not_name (l : List TableEntry) (n : String) :
    ((l.filter (fun e => !(e.name == n))).any (fun e => e.name == n))
      = false := by
  cases hc : (l.filter (fun e => !(e.name == n))).any (fun e => e.name == n)
    with
  | false => rfl
  | true =>
    rw [List.any_eq_true] at hc
    obtain ⟨x, hx, hpx⟩ := hc
    rw [List.mem_filter] at hx
    rw [hpx] at hx
    simp at hx

theorem recreateStep_del (existing : List String) (t : TableDef) (db : DB)
    (hex : existing.any (fun m => m == t.name) = true)
    (hdel : db.tables.any (fun e => e.name == t.name) = true) :
    recreateStep existing t db =
      (.ok (), ⟨db.tables.filter (fun e => !(e.name == t.name))
          ++ [⟨t.name, t.keys, t.props, []⟩],
        db.log ++ [.deleteT t.name] ++ [.createT t]⟩) := by
  simp only [recreateStep, DB.delete_table, DB.create_table, hex, hdel,
    cond_true, any_filter_not_name, cond_false, List.append_assoc]

theorem recreateStep_delMissing (existing : List String) (t : TableDef)
    (db : DB)
    (hex : existing.any (fun m => m == t.name) = true)
    (hdel : db.tables.any (fun e => e.name == t.name) = false) :
    recreateStep existing t db =
      (.error (.resourceNotFound t.name),
        ⟨db.tables, db.log ++ [.deleteT t.name]⟩) := by
  simp only [recreateStep, DB.delete_table, hex, hdel, cond_true, cond_false]

theorem recreateStep_nodel (existing : List String) (t : TableDef) (db : DB)
    (hex : existing.any (fun m => m == t.name) = false)
    (hcr : db.tables.any (fun e => e.name == t.name) = false) :
    recreateStep existing t db =
      (.ok (), ⟨db.tables ++ [⟨t.name, t.keys, t.props, []⟩],
        db.log ++ [.createT t]⟩) := by
  simp only [recreateStep, DB.create_table, hex, hcr, cond_true, cond_false]

theorem recreateStep_createInUse (existing : List String) (t : TableDef)
    (db : DB)
    (hex : existing.any (fun m => m == t.name) = false)
    (hcr : db.tables.any (fun e => e.name == t.name) = true) :
    recreateStep existing t db =
      (.error (.resourceInUse t.name),
        ⟨db.tables, db.log ++ [.createT t]⟩) := by
  simp only [recreateStep, DB.create_table, hex, hcr, cond_true, cond_false]

/-- The call sequence that claim C2 says one loop iteration of
`recreate_through` issues: a delete when the table's name was in the fetched
list, then a create. -/
def claimedRecreateOps (existing : List String) : List TableDef → List DbOp
  | [] => []
  | t :: ts =>
    (cond (existing.any (fun m => m == t.name)) [DbOp.deleteT t.name] [])
      ++ [DbOp.createT t] ++ claimedRecreateOps existing ts

theorem recreateStep_log (existing : List String) (t : TableDef) (db : DB)
    (h : (recreateStep existing t db).1 = .ok ()) :
    (recreateStep existing t db).2.log =
      db.log ++
        (cond (existing.any (fun m => m == t.name)) [DbOp.deleteT t.name] [])
        ++ [DbOp.createT t] := by
  cases hex : existing.any (fun m => m == t.name) with
  | true =>
    cases hdel : db.tables.any (fun e => e.name == t.name) with
    | true =>
      rw [recreateStep_del existing t db hex hdel]
      simp
    | false =>
      rw [recreateStep_delMissing existing t db hex hdel] at h
      simp at h
  | false =>
    cases hcr : db.tables.any (fun e => e.name == t.name) with
    | true =>
      rw [recreateStep_createInUse existing t db hex hcr] at h
      simp at h
    | false =>
      rw [recreateStep_nodel existing t db hex hcr]
      simp

theorem recreateLoop_log (existing : List String) (ts : List TableDef)
    (db : DB) (h : (recreateLoop existing ts db).1 = .ok ()) :
    (recreateLoop existing ts db).2.log =
      db.log ++ claimedRecreateOps existing ts := by
  induction ts generalizing db with
  | nil => simp [recreateLoop, claimedRecreateOps]
  | cons t ts ih =>
    simp only [recreateLoop] at h ⊢
    cases hs : recreateStep existing t db with
    | mk r db2 =>
      rw [hs] at h
      cases r with
      | error e => simp at h
      | ok u =>
        cases u
        have h2 : (recreateLoop existing ts db2).1 = .ok () := h
        show (recreateLoop existing ts db2).2.log =
          db.log ++ claimedRecreateOps existing (t :: ts)
        rw [ih db2 h2]
        have hlog : db2.log = db.log ++
            (cond (existing.any (fun m => m == t.name))
              [DbOp.deleteT t.name] [])
            ++ [DbOp.createT t] := by
          have hl := recreateStep_log existing t db (by rw [hs])
          rw [hs] at hl
          exact hl
        rw [hlog]
        simp [claimedRecreateOps, List.append_assoc]

/-- Concrete instance for C2: the schema declares tables `Users` and
`Orders`. -/
def usersTable : TableDef := ⟨"Users", ["id"], [("TableName", "Users")]⟩

def ordersTable : TableDef :=
  ⟨"Orders", ["id"], [("TableName", "Orders")]⟩

/-- Concrete instance for C2: the local service already holds a `Users`
table with one stale row, and no call has been logged yet. -/
def c2Db : DB :=
  ⟨[⟨"Users", ["id"], [("TableName", "Users")], [[("id", "0")]]⟩], []⟩

/-- Claim C2: when `recreate_through` succeeds, its client-call log is the
single fetch of the existing table names followed, for each table definition
in `tables` order, by a delete exactly when the name was in that fetched
list and then a create from its declared properties; on the concrete
`Users`/`Orders` instance with only `Users` pre-existing, it deletes
`Users`, creates `Users`, creates `Orders`, and the resulting table list is
`Users, Orders`. -/
theorem C2_thm :
    (∀ (endpoint : String) (ts : List TableDef) (db : DB),
      (recreate_through endpoint ts db).1 = .ok () →
      (recreate_through endpoint ts db).2.log =
        db.log ++ [DbOp.listT] ++ claimedRecreateOps db.tableNames ts) ∧
    recreate_through "http://localhost:8100" [usersTable, ordersTable] c2Db =
      (.ok (), ⟨[⟨"Users", ["id"], [("TableName", "Users")], []⟩,
                 ⟨"Orders", ["id"], [("TableName", "Orders")], []⟩],
                [.listT, .deleteT "Users", .createT usersTable,
                 .createT ordersTable]⟩) ∧
    (recreate_through "http://localhost:8100" [usersTable, ordersTable]
      c2Db).2.tableNames = ["Users", "Orders"] := by
  refine ⟨fun endpoint ts db h => ?_, by decide, by decide⟩
  unfold recreate_through at h ⊢
  cases hloc : localEndpointCheck endpoint with
  | false =>
    rw [hloc] at h
    simp at h
  | true =>
    rw [hloc] at h
    have h2 : (recreateLoop db.tableNames ts
        ⟨db.tables, db.log ++ [DbOp.listT]⟩).1 = .ok () := h
    show (recreateLoop db.tableNames ts
        ⟨db.tables, db.log ++ [DbOp.listT]⟩).2.log =
      db.log ++ [DbOp.listT] ++ claimedRecreateOps db.tableNames ts
    have hl := recreateLoop_log db.tableNames ts
      ⟨db.tables, db.log ++ [DbOp.listT]⟩ h2
    simpa using hl

theorem C2_wit :
    (recreate_through "http://localhost:8100" [usersTable, ordersTable]
      c2Db).2.log =
      c2Db.log ++ [DbOp.listT] ++
        claimedRecreateOps c2Db.tableNames [usersTable, ordersTable] :=
  C2_thm.1 "http://localhost:8100" [usersTable, ordersTable] c2Db (by decide)

theorem find?_name_filter (l : List TableEntry) (n m : String) (h : n ≠ m) :
    (l.filter (fun e => !(e.name == m))).find? (fun e => e.name == n)
      = l.find? (fun e => e.name == n) := by
  induction l with
  | nil => rfl
  | cons e rest ih =>
    cases hm : (e.name == m) with
    | true =>
      have hem : e.name = m := by simpa using hm
      have hn : (e.name == n) = false :=
        beq_false_of_ne (by rw [hem]; exact Ne.symm h)
      rw [List.filter_cons_of_neg (by simp [hm])]
      simp only [List.find?, hn]
      exact ih
    | false =>
      rw [List.filter_cons_of_pos (by simp [hm])]
      simp only [List.find?]
      cases hn : (e.name == n) with
      | true => rfl
      | false => exact ih

theorem find?_name_filter_self (l : List TableEntry) (m : String) :
    (l.filter (fun e => !(e.name == m))).find? (fun e => e.name == m)
      = none := by
  rw [List.find?_eq_none]
  intro x hx
  rw [List.mem_filter] at hx
  intro hc
  rw [hc] at hx
  simp at hx

theorem find?_name_any_false (l : List TableEntry) (m : String)
    (h : l.any (fun e => e.name == m) = false) :
    l.find? (fun e => e.name == m) = none := by
  rw [List.find?_eq_none]
  rw [List.any_eq_false] at h
  exact h

theorem tableRows_eq_tableState (db : DB) (n : String) :
    db.tableRows n = (db.tableState n).map (fun s => s.2) := by
  unfold DB.tableRows DB.tableState
  cases db.tables.find? (fun e => e.name == n) with
  | none => rfl
  | some e => rfl

theorem recreateStep_state_self (existing : List String) (t : TableDef)
    (db db2 : DB) (hs : recreateStep existing t db = (.ok (), db2)) :
    db2.tableState t.name = some (t.keys, []) := by
  cases hex : existing.any (fun m => m == t.name) with
  | true =>
    cases hdel : db.tables.any (fun e => e.name == t.name) with
    | true =>
      rw [recreateStep_del existing t db hex hdel] at hs
      have hdb : db2 = ⟨db.tables.filter (fun e => !(e.name == t.name))
          ++ [⟨t.name, t.keys, t.props, []⟩],
          db.log ++ [.deleteT t.name] ++ [.createT t]⟩ :=
        (congrArg Prod.snd hs).symm
      rw [hdb]
      show ((db.tables.filter (fun e : TableEntry => !(e.name == t.name))
          ++ [TableEntry.mk t.name t.keys t.props []]).find?
            (fun e : TableEntry => e.name == t.name)).map
          (fun e : TableEntry => (e.keys, e.rows)) = some (t.keys, [])
      rw [List.find?_append, find?_name_filter_self]
      simp [List.find?]
    | false =>
      rw [recreateStep_delMissing existing t db hex hdel] at hs
      simp at hs
  | false =>
    cases hcr : db.tables.any (fun e => e.name == t.name) with
    | true =>
      rw [recreateStep_createInUse existing t db hex hcr] at hs
      simp at hs
    | false =>
      rw [recreateStep_nodel existing t db hex hcr] at hs
      have hdb : db2 = ⟨db.tables ++ [⟨t.name, t.keys, t.props, []⟩],
          db.log ++ [.createT t]⟩ := (congrArg Prod.snd hs).symm
      rw [hdb]
      show ((db.tables ++ [TableEntry.mk t.name t.keys t.props []]).find?
            (fun e : TableEntry => e.name == t.name)).map
          (fun e : TableEntry => (e.keys, e.rows)) = some (t.keys, [])
      rw [List.find?_append, find?_name_any_false db.tables t.name hcr]
      simp [List.find?]

theorem recreateStep_state_ne (existing : List String) (t : TableDef)
    (db db2 : DB) (hs : recreateStep existing t db = (.ok (), db2))
    (n : String) (hn : n ≠ t.name) :
    db2.tableState n = db.tableState n := by
  have hnew : ((TableEntry.mk t.name t.keys t.props []).name == n) = false :=
    beq_false_of_ne (Ne.symm hn)
  cases hex : existing.any (fun m => m == t.name) with
  | true =>
    cases hdel : db.tables.any (fun e => e.name == t.name) with
    | true =>
      rw [recreateStep_del existing t db hex hdel] at hs
      have hdb : db2 = ⟨db.tables.filter (fun e => !(e.name == t.name))
          ++ [⟨t.name, t.keys, t.props, []⟩],
          db.log ++ [.deleteT t.name] ++ [.createT t]⟩ :=
        (congrArg Prod.snd hs).symm
      rw [hdb]
      show ((db.tables.filter (fun e : TableEntry => !(e.name == t.name))
          ++ [TableEntry.mk t.name t.keys t.props []]).find?
            (fun e : TableEntry => e.name == n)).map
          (fun e : TableEntry => (e.keys, e.rows)) = db.tableState n
      rw [List.find?_append, find?_name_filter db.tables n t.name hn]
      cases hf : db.tables.find? (fun e : TableEntry => e.name == n) with
      | some e => simp [DB.tableState, hf]
      | none => simp [DB.tableState, hf, List.find?, hnew]
    | false =>
      rw [recreateStep_delMissing existing t db hex hdel] at hs
      simp at hs
  | false =>
    cases hcr : db.tables.any (fun e => e.name == t.name) with
    | true =>
      rw [recreateStep_createInUse existing t db hex hcr] at hs
      simp at hs
    | false =>
      rw [recreateStep_nodel existing t db hex hcr] at hs
      have hdb : db2 = ⟨db.tables ++ [⟨t.name, t.keys, t.props, []⟩],
          db.log ++ [.createT t]⟩ := (congrArg Prod.snd hs).symm
      rw [hdb]
      show ((db.tables ++ [TableEntry.mk t.name t.keys t.props []]).find?
            (fun e : TableEntry => e.name == n)).map
          (fun e : TableEntry => (e.keys, e.rows)) = db.tableState n
      rw [List.find?_append]
      cases hf : db.tables.find? (fun e : TableEntry => e.name == n) with
      | some e => simp [DB.tableState, hf]
      | none => simp [DB.tableState, hf, List.find?, hnew]

/-- The last table definition in `ts` whose name is `n`: since the loop of
`recreate_through` deletes and recreates left to right, this is the
definition whose create wins when the call succeeds. -/
def lastDef (ts : List TableDef) (n : String) : Option TableDef :=
  ts.reverse.find? (fun t => t.name == n)

theorem lastDef_eq_none (ts : List TableDef) (n : String)
    (h : ts.any (fun t => t.name == n) = false) : lastDef ts n = none := by
  unfold lastDef
  rw [List.find?_eq_none]
  rw [List.any_eq_false] at h
  intro t ht
  exact h t (List.mem_reverse.mp ht)

theorem lastDef_of_any (ts : List TableDef) (n : String)
    (h : ts.any (fun t => t.name == n) = true) :
    ∃ t, lastDef ts n = some t ∧ t ∈ ts ∧ t.name = n := by
  cases hld : lastDef ts n with
  | none =>
    unfold lastDef at hld
    rw [List.find?_eq_none] at hld
    rw [List.any_eq_true] at h
    obtain ⟨t, ht, hp⟩ := h
    exact absurd hp (hld t (List.mem_reverse.mpr ht))
  | some t =>
    refine ⟨t, rfl, ?_, ?_⟩
    · exact List.mem_reverse.mp (List.mem_of_find?_eq_some hld)
    · have hp := List.find?_some hld
      simpa using hp

theorem lastDef_cons_of_any (t : TableDef) (ts : List TableDef) (n : String)
    (hts : ts.any (fun x => x.name == n) = true) :
    lastDef (t :: ts) n = lastDef ts n := by
  obtain ⟨t', hld, _, _⟩ := lastDef_of_any ts n hts
  unfold lastDef at hld ⊢
  rw [List.reverse_cons, List.find?_append, hld]
  rfl

theorem lastDef_cons_self (t : TableDef) (ts : List TableDef) (n : String)
    (hts : ts.any (fun x => x.name == n) = false)
    (htn : (t.name == n) = true) :
    lastDef (t :: ts) n = some t := by
  have hnone : ts.reverse.find? (fun x => x.name == n) = none := by
    rw [List.find?_eq_none]
    rw [List.any_eq_false] at hts
    intro x hx
    exact hts x (List.mem_reverse.mp hx)
  unfold lastDef
  rw [List.reverse_cons, List.find?_append, hnone]
  simp [List.find?, htn]

theorem lastDef_cons_none (t : TableDef) (ts : List TableDef) (n : String)
    (hts : ts.any (fun x => x.name == n) = false)
    (htn : (t.name == n) = false) :
    lastDef (t :: ts) n = none := by
  have hnone : ts.reverse.find? (fun x => x.name == n) = none := by
    rw [List.find?_eq_none]
    rw [List.any_eq_false] at hts
    intro x hx
    exact hts x (List.mem_reverse.mp hx)
  unfold lastDef
  rw [List.reverse_cons, List.find?_append, hnone]
  simp [List.find?, htn]

theorem recreateLoop_state (existing : List String) (ts : List TableDef)
    (db : DB) (h : (recreateLoop existing ts db).1 = .ok ()) (n : String) :
    (recreateLoop existing ts db).2.tableState n =
      match lastDef ts n with
      | some t => some (t.keys, [])
      | none => db.tableState n := by
  induction ts generalizing db with
  | nil => simp [recreateLoop, lastDef]
  | cons t ts ih =>
    simp only [recreateLoop] at h ⊢
    cases hs : recreateStep existing t db with
    | mk r db2 =>
      rw [hs] at h
      cases r with
      | error e => simp at h
      | ok u =>
        cases u
        have h2 : (recreateLoop existing ts db2).1 = .ok () := h
        show (recreateLoop existing ts db2).2.tableState n =
          match lastDef (t :: ts) n with
          | some t' => some (t'.keys, [])
          | none => db.tableState n
        rw [ih db2 h2]
        cases hts : ts.any (fun x => x.name == n) with
        | true =>
          rw [lastDef_cons_of_any t ts n hts]
          obtain ⟨t', hld, _, _⟩ := lastDef_of_any ts n hts
          rw [hld]
        | false =>
          rw [lastDef_eq_none ts n hts]
          cases htn : (t.name == n) with
          | true =>
            rw [lastDef_cons_self t ts n hts htn]
            have heq : t.name = n := by simpa using htn
            rw [← heq]
            simp [recreateStep_state_self existing t db db2 hs]
          | false =>
            rw [lastDef_cons_none t ts n hts htn]
            have hne : n ≠ t.name := by
              intro hc
              rw [hc, beq_self_eq_true] at htn
              exact absurd htn (by simp)
            simp [recreateStep_state_ne existing t db db2 hs n hne]

theorem recreate_through_state (endpoint : String) (ts : List TableDef)
    (db : DB) (h : (recreate_through endpoint ts db).1 = .ok ())
    (n : String) :
    (recreate_through endpoint ts db).2.tableState n =
      match lastDef ts n with
      | some t => some (t.keys, [])
      | none => db.tableState n := by
  unfold recreate_through at h ⊢
  cases hloc : localEndpointCheck endpoint with
  | false =>
    rw [hloc] at h
    simp at h
  | true =>
    rw [hloc] at h
    have h2 : (recreateLoop db.tableNames ts
        ⟨db.tables, db.log ++ [DbOp.listT]⟩).1 = .ok () := h
    show (recreateLoop db.tableNames ts
        ⟨db.tables, db.log ++ [DbOp.listT]⟩).2.tableState n =
      match lastDef ts n with
      | some t => some (t.keys, [])
      | none => db.tableState n
    rw [recreateLoop_state db.tableNames ts
      ⟨db.tables, db.log ++ [DbOp.listT]⟩ h2 n]
    rfl

theorem find?_name_map_put (l : List TableEntry) (n : String) (it : Item)
    (m : String) :
    (l.map (fun e => cond (e.name == n)
        (TableEntry.mk e.name e.keys e.props (upsert e.keys it e.rows))
        e)).find? (fun e => e.name == m) =
      (l.find? (fun e : TableEntry => e.name == m)).map
        (fun e => cond (e.name == n)
          (TableEntry.mk e.name e.keys e.props (upsert e.keys it e.rows))
          e) := by
  induction l with
  | nil => rfl
  | cons e rest ih =>
    have hname : (cond (e.name == n)
        (TableEntry.mk e.name e.keys e.props (upsert e.keys it e.rows))
          e).name = e.name := by
      cases e.name == n with
      | true => rfl
      | false => rfl
    simp only [List.map_cons, List.find?, hname]
    cases hm : (e.name == m) with
    | true => rfl
    | false => exact ih

theorem put_item_missing (db : DB) (n : String) (it : Item)
    (hany : db.tables.any (fun e => e.name == n) = false) :
    db.put_item n it =
      (.error (.resourceNotFound n), ⟨db.tables, db.log ++ [.putT n it]⟩) := by
  simp only [DB.put_item, hany, cond_false]

theorem put_item_found (db : DB) (n : String) (it : Item)
    (hany : db.tables.any (fun e => e.name == n) = true) :
    db.put_item n it =
      (.ok (), ⟨db.tables.map (fun e => cond (e.name == n)
          (TableEntry.mk e.name e.keys e.props (upsert e.keys it e.rows)) e),
        db.log ++ [.putT n it]⟩) := by
  simp only [DB.put_item, hany, cond_true]

theorem put_item_state (db db2 : DB) (n : String) (it : Item)
    (hs : db.put_item n it = (.ok (), db2)) :
    (db2.tableState n = (db.tableState n).map
      (fun s => (s.1, upsert s.1 it s.2))) ∧
    (∀ m, m ≠ n → db2.tableState m = db.tableState m) := by
  cases hany : db.tables.any (fun e => e.name == n) with
  | false =>
    rw [put_item_missing db n it hany] at hs
    simp at hs
  | true =>
    rw [put_item_found db n it hany] at hs
    have hdb : db2 = ⟨db.tables.map (fun e => cond (e.name == n)
        (TableEntry.mk e.name e.keys e.props (upsert e.keys it e.rows)) e),
      db.log ++ [.putT n it]⟩ := (congrArg Prod.snd hs).symm
    rw [hdb]
    constructor
    · show ((db.tables.map (fun e : TableEntry => cond (e.name == n)
          (TableEntry.mk e.name e.keys e.props (upsert e.keys it e.rows))
            e)).find? (fun e : TableEntry => e.name == n)).map
          (fun e : TableEntry => (e.keys, e.rows)) =
        (db.tableState n).map (fun s => (s.1, upsert s.1 it s.2))
      rw [find?_name_map_put]
      cases hf : db.tables.find? (fun e : TableEntry => e.name == n) with
      | none => simp [DB.tableState, hf]
      | some e =>
        have he := List.find?_some hf
        simp [DB.tableState, hf, he]
    · intro m hm
      show ((db.tables.map (fun e : TableEntry => cond (e.name == n)
          (TableEntry.mk e.name e.keys e.props (upsert e.keys it e.rows))
            e)).find? (fun e : TableEntry => e.name == m)).map
          (fun e : TableEntry => (e.keys, e.rows)) = db.tableState m
      rw [find?_name_map_put]
      cases hf : db.tables.find? (fun e : TableEntry => e.name == m) with
      | none => simp [DB.tableState, hf]
      | some e =>
        have he := List.find?_some hf
        have hen : (e.name == n) = false := by
          have hem : e.name = m := by simpa using he
          exact beq_false_of_ne (by rw [hem]; exact hm)
        simp [DB.tableState, hf, hen]

theorem putItemsLoop_state (n : String) (items : List Item) (db : DB)
    (h : (putItemsLoop n items db).1 = .ok ()) :
    ((putItemsLoop n items db).2.tableState n =
      (db.tableState n).map (fun s => (s.1, upsertList s.1 items s.2))) ∧
    (∀ m, m ≠ n → (putItemsLoop n items db).2.tableState m
      = db.tableState m) := by
  induction items generalizing db with
  | nil =>
    constructor
    · show db.tableState n =
        (db.tableState n).map (fun s => (s.1, upsertList s.1 [] s.2))
      cases db.tableState n with
      | none => rfl
      | some s => rfl
    · intro m _
      rfl
  | cons it its ih =>
    simp only [putItemsLoop] at h ⊢
    cases hs : db.put_item n it with
    | mk r db2 =>
      rw [hs] at h
      cases r with
      | error e => simp at h
      | ok u =>
        cases u
        have h2 : (putItemsLoop n its db2).1 = .ok () := h
        have hput := put_item_state db db2 n it hs
        constructor
        · show (putItemsLoop n its db2).2.tableState n =
            (db.tableState n).map
              (fun s => (s.1, upsertList s.1 (it :: its) s.2))
          rw [(ih db2 h2).1, hput.1]
          cases db.tableState n with
          | none => rfl
          | some s => rfl
        · intro m hm
          show (putItemsLoop n its db2).2.tableState m = db.tableState m
          rw [(ih db2 h2).2 m hm, hput.2 m hm]

theorem lookup_none_of_not_mem_keys (l : List (String × List Item))
    (n : String) (h : n ∉ l.map Prod.fst) : l.lookup n = none := by
  induction l with
  | nil => rfl
  | cons p rest ih =>
    obtain ⟨k, v⟩ := p
    rw [List.map_cons] at h
    have hk : (n == k) = false := by
      refine beq_false_of_ne fun hc => ?_
      exact h (by rw [hc]; exact List.mem_cons_self k _)
    simp only [List.lookup, hk]
    exact ih (fun hc => h (List.mem_cons_of_mem k hc))

theorem putFixture_state (fixture : List (String × List Item)) (db : DB)
    (h : (putFixture fixture db).1 = .ok ())
    (hnd : (fixture.map Prod.fst).Nodup) (n : String) :
    (putFixture fixture db).2.tableState n =
      match fixture.lookup n with
      | some items =>
        (db.tableState n).map (fun s => (s.1, upsertList s.1 items s.2))
      | none => db.tableState n := by
  induction fixture generalizing db with
  | nil => rfl
  | cons p rest ih =>
    obtain ⟨m, items⟩ := p
    rw [List.map_cons, List.nodup_cons] at hnd
    simp only [putFixture] at h ⊢
    cases hs : putItemsLoop m items db with
    | mk r db2 =>
      rw [hs] at h
      cases r with
      | error e => simp at h
      | ok u =>
        cases u
        have h2 : (putFixture rest db2).1 = .ok () := h
        have hloop := putItemsLoop_state m items db (by rw [hs])
        rw [hs] at hloop
        cases hnm : (n == m) with
        | true =>
          have hnmeq : n = m := by simpa using hnm
          subst hnmeq
          have hrest : rest.lookup n = none :=
            lookup_none_of_not_mem_keys rest n hnd.1
          show (putFixture rest db2).2.tableState n =
            match List.lookup n ((n, items) :: rest) with
            | some its =>
              (db.tableState n).map (fun s => (s.1, upsertList s.1 its s.2))
            | none => db.tableState n
          rw [ih db2 h2 hnd.2, hrest]
          simp only [List.lookup, beq_self_eq_true]
          exact hloop.1
        | false =>
          have hne : n ≠ m := by
            intro hc
            rw [hc, beq_self_eq_true] at hnm
            exact absurd hnm (by simp)
          show (putFixture rest db2).2.tableState n =
            match List.lookup n ((m, items) :: rest) with
            | some its =>
              (db.tableState n).map (fun s => (s.1, upsertList s.1 its s.2))
            | none => db.tableState n
          rw [ih db2 h2 hnd.2]
          simp only [List.lookup, hnm]
          rw [hloop.2 n hne]

theorem upsert_append (keys : List String) (it : Item) (rs : List Item)
    (h : ∀ r ∈ rs, sameKey keys r it = false) :
    upsert keys it rs = rs ++ [it] := by
  induction rs with
  | nil => rfl
  | cons r rs ih =>
    have hr : sameKey keys r it = false := h r (List.mem_cons_self r rs)
    simp only [upsert, hr, cond_false, List.cons_append]
    rw [ih (fun x hx => h x (List.mem_cons_of_mem r hx))]

theorem upsertList_append (keys : List String) (items : List Item)
    (rs : List Item)
    (hdisj : ∀ r ∈ rs, ∀ it ∈ items, sameKey keys r it = false)
    (hpw : distinctKeys keys items = true) :
    upsertList keys items rs = rs ++ items := by
  induction items generalizing rs with
  | nil => simp [upsertList]
  | cons it its ih =>
    simp only [distinctKeys, Bool.and_eq_true, List.all_eq_true] at hpw
    show upsertList keys its (upsert keys it rs) = rs ++ (it :: its)
    rw [upsert_append keys it rs
      (fun r hr => hdisj r hr it (List.mem_cons_self it its))]
    have hd : ∀ r ∈ rs ++ [it], ∀ b ∈ its, sameKey keys r b = false := by
      intro r hr b hb
      rcases List.mem_append.mp hr with hr1 | hr2
      · exact hdisj r hr1 b (List.mem_cons_of_mem it hb)
      · have hre : r = it := by simpa using hr2
        subst hre
        have hh := hpw.1 b hb
        simpa using hh
    rw [ih (rs ++ [it]) hd hpw.2, List.append_assoc]
    rfl

theorem upsertList_nil_of_distinct (keys : List String) (items : List Item)
    (hpw : distinctKeys keys items = true) :
    upsertList keys items [] = items := by
  have hh := upsertList_append keys items []
    (fun r hr => absurd hr (by simp)) hpw
  simpa using hh

theorem fresh_state (ts : List TableDef) (endpoint : String)
    (fixture : List (String × List Item)) (db : DB)
    (h : (fresh_test_tables ts endpoint (some fixture) db).1 = .ok ())
    (hnd : (fixture.map Prod.fst).Nodup) (n : String) :
    (fresh_test_tables ts endpoint (some fixture) db).2.tableState n =
      match lastDef ts n with
      | some t => some (t.keys,
          upsertList t.keys ((fixture.lookup n).getD []) [])
      | none =>
        match fixture.lookup n with
        | some items =>
          (db.tableState n).map (fun s => (s.1, upsertList s.1 items s.2))
        | none => db.tableState n := by
  simp only [fresh_test_tables] at h ⊢
  cases hs : recreate_through endpoint ts db with
  | mk r db2 =>
    rw [hs] at h
    cases r with
    | error e => simp at h
    | ok u =>
      cases u
      have h2 : (putFixture fixture db2).1 = .ok () := h
      have hr := recreate_through_state endpoint ts db (by rw [hs]) n
      rw [hs] at hr
      have hp := putFixture_state fixture db2 h2 hnd n
      show (putFixture fixture db2).2.tableState n =
        match lastDef ts n with
        | some t => some (t.keys,
            upsertList t.keys ((fixture.lookup n).getD []) [])
        | none =>
          match fixture.lookup n with
          | some items =>
            (db.tableState n).map (fun s => (s.1, upsertList s.1 items s.2))
          | none => db.tableState n
      rw [hp]
      cases hld : lastDef ts n with
      | some t =>
        rw [hld] at hr
        have hr2 : db2.tableState n = some (t.keys, []) := hr
        rw [hr2]
        cases hlk : fixture.lookup n with
        | some items => simp
        | none => simp [upsertList]
      | none =>
        rw [hld] at hr
        have hr2 : db2.tableState n = db.tableState n := hr
        rw [hr2]

/-- Claim C8 (amended): for a fixture mapping (a Python dict, so its table
names are unique) whose table names all belong to the schema and whose
per-table rows have pairwise-distinct primary keys, calling
`fresh_test_tables` twice in succession with the same fixture data is
idempotent: the second call leaves every table's key schema and contents
unchanged; after either call every schema table's contents equal exactly the
fixture rows for that table (rows are not duplicated), with schema tables
absent from the fixture data holding no rows; and tables outside the schema
are not touched by a call at all.  The counterexample shows why the frozen
claim had to be narrowed: a fixture table that is missing from the schema
but pre-exists keeps its differently-keyed old items next to the fixture
items — `PutItem` replaces only the item with the same primary key and
`recreate_through` drops only schema tables — so its contents never equal
exactly the fixture rows although both calls succeed; and a duplicate-keyed
fixture row would replace its predecessor rather than coexist, which is why
the contents clause needs pairwise-distinct keys. -/
theorem C8_thm (ts : List TableDef) (endpoint : String)
    (fixture : List (String × List Item)) (db db1 db2 : DB)
    (hnd : (fixture.map Prod.fst).Nodup)
    (hsub : ∀ k ∈ fixture.map Prod.fst,
      ts.any (fun t => t.name == k) = true)
    (hkeys : ∀ t ∈ ts,
      distinctKeys t.keys ((fixture.lookup t.name).getD []) = true)
    (h1 : fresh_test_tables ts endpoint (some fixture) db = (.ok (), db1))
    (h2 : fresh_test_tables ts endpoint (some fixture) db1 = (.ok (), db2)) :
    (∀ n, db2.tableState n = db1.tableState n) ∧
    (∀ n, ts.any (fun t => t.name == n) = true →
      db1.tableRows n = some ((fixture.lookup n).getD []) ∧
      db2.tableRows n = some ((fixture.lookup n).getD [])) ∧
    (∀ n, ts.any (fun t => t.name == n) = false →
      db1.tableState n = db.tableState n) := by
  have hf1 : ∀ n, db1.tableState n =
      match lastDef ts n with
      | some t => some (t.keys,
          upsertList t.keys ((fixture.lookup n).getD []) [])
      | none =>
        match fixture.lookup n with
        | some items =>
          (db.tableState n).map (fun s => (s.1, upsertList s.1 items s.2))
        | none => db.tableState n := by
    intro n
    have hf := fresh_state ts endpoint fixture db (by rw [h1]) hnd n
    rw [h1] at hf
    exact hf
  have hf2 : ∀ n, db2.tableState n =
      match lastDef ts n with
      | some t => some (t.keys,
          upsertList t.keys ((fixture.lookup n).getD []) [])
      | none =>
        match fixture.lookup n with
        | some items =>
          (db1.tableState n).map (fun s => (s.1, upsertList s.1 items s.2))
        | none => db1.tableState n := by
    intro n
    have hf := fresh_state ts endpoint fixture db1 (by rw [h2]) hnd n
    rw [h2] at hf
    exact hf
  have hnofix : ∀ n, ts.any (fun t => t.name == n) = false →
      fixture.lookup n = none := by
    intro n hn
    refine lookup_none_of_not_mem_keys fixture n (fun hc => ?_)
    have hc2 := hsub n hc
    rw [hn] at hc2
    exact absurd hc2 (by simp)
  refine ⟨?_, ?_, ?_⟩
  · intro n
    cases hn : ts.any (fun t => t.name == n) with
    | true =>
      obtain ⟨t, hld, _, _⟩ := lastDef_of_any ts n hn
      have e1 : db1.tableState n = some (t.keys,
          upsertList t.keys ((fixture.lookup n).getD []) []) := by
        have hh := hf1 n
        rw [hld] at hh
        exact hh
      have e2 : db2.tableState n = some (t.keys,
          upsertList t.keys ((fixture.lookup n).getD []) []) := by
        have hh := hf2 n
        rw [hld] at hh
        exact hh
      rw [e1, e2]
    | false =>
      have hlk := hnofix n hn
      have hld := lastDef_eq_none ts n hn
      have hh := hf2 n
      rw [hld, hlk] at hh
      exact hh
  · intro n hn
    obtain ⟨t, hld, htm, htn⟩ := lastDef_of_any ts n hn
    have hdk : distinctKeys t.keys ((fixture.lookup n).getD []) = true := by
      have hh := hkeys t htm
      rw [htn] at hh
      exact hh
    have hup : upsertList t.keys ((fixture.lookup n).getD []) [] =
        (fixture.lookup n).getD [] :=
      upsertList_nil_of_distinct t.keys _ hdk
    have e1 : db1.tableState n = some (t.keys,
        (fixture.lookup n).getD []) := by
      have hh : db1.tableState n = some (t.keys,
          upsertList t.keys ((fixture.lookup n).getD []) []) := by
        have hh0 := hf1 n
        rw [hld] at hh0
        exact hh0
      rw [hup] at hh
      exact hh
    have e2 : db2.tableState n = some (t.keys,
        (fixture.lookup n).getD []) := by
      have hh : db2.tableState n = some (t.keys,
          upsertList t.keys ((fixture.lookup n).getD []) []) := by
        have hh0 := hf2 n
        rw [hld] at hh0
        exact hh0
      rw [hup] at hh
      exact hh
    constructor
    · rw [tableRows_eq_tableState db1 n, e1]
      rfl
    · rw [tableRows_eq_tableState db2 n, e2]
      rfl
  · intro n hn
    have hlk := hnofix n hn
    have hld := lastDef_eq_none ts n hn
    have hh := hf1 n
    rw [hld, hlk] at hh
    exact hh

def c8Fixture : List (String × List Item) :=
  [("Users", [[("id", "1"), ("name", "Ann")]])]

def c8Db1 : DB :=
  (fresh_test_tables [usersTable] "http://localhost:8100"
    (some c8Fixture) ⟨[], []⟩).2

def c8Db2 : DB :=
  (fresh_test_tables [usersTable] "http://localhost:8100"
    (some c8Fixture) c8Db1).2

theorem C8_wit :
    c8Db2.tableState "Users" = c8Db1.tableState "Users" ∧
    c8Db1.tableRows "Users" = some [[("id", "1"), ("name", "Ann")]] ∧
    c8Db2.tableRows "Users" = some [[("id", "1"), ("name", "Ann")]] := by
  have h := C8_thm [usersTable] "http://localhost:8100" c8Fixture
    ⟨[], []⟩ c8Db1 c8Db2 (by decide) (by decide) (by decide)
    (by decide) (by decide)
  refine ⟨h.1 "Users", ?_, ?_⟩
  · have hu := (h.2.1 "Users" (by decide)).1
    rw [hu]
    decide
  · have hu := (h.2.1 "Users" (by decide)).2
    rw [hu]
    decide

def c8xFixture : List (String × List Item) := [("X", [[("id", "1")]])]

def c8xDb0 : DB := ⟨[⟨"X", ["id"], [], [[("id", "9")]]⟩], []⟩

def c8xDb1 : DB :=
  (fresh_test_tables [] "http://localhost:8100" (some c8xFixture) c8xDb0).2

def c8xDb2 : DB :=
  (fresh_test_tables [] "http://localhost:8100" (some c8xFixture) c8xDb1).2

/-- Counterexample to claim C8 as stated: with an empty schema, a database
already holding a (non-schema) table `X` whose one item has primary key
`id=9`, and fixture data giving `X` one `id=1` item, both calls succeed and
the second changes nothing, yet `X` finally holds the stale `id=9` item next
to the fixture item: `recreate_through` drops only schema tables and
`PutItem` replaces only the item with the same primary key, so the final
contents never equal exactly the fixture rows, contrary to the claim. -/
theorem C8_cex :
    (fresh_test_tables [] "http://localhost:8100" (some c8xFixture)
      c8xDb0).1 = .ok () ∧
    (fresh_test_tables [] "http://localhost:8100" (some c8xFixture)
      c8xDb1).1 = .ok () ∧
    c8xDb1.tableRows "X" = some [[("id", "9")], [("id", "1")]] ∧
    c8xDb2.tableRows "X" = c8xDb1.tableRows "X" ∧
    c8xDb1.tableRows "X" ≠ some [[("id", "1")]] ∧
    c8xDb2.tableRows "X" ≠ some [[("id", "1")]] := by decide

theorem C10_wit :
    acquire c10Outcome (some ⟨[], true⟩) w6Wait = (.error .unboundLocal, []) ∧
    (acquire c10Outcome (some ⟨[], true⟩) w6Wait).1 ≠
      .error (.noPortAvailable [1]) :=
  ⟨C10_thm.1 c10Outcome w6Wait, C10_thm.2.2.2 c10Outcome w6Wait [1]⟩

end RunDynamoDBLocal
